import Mathlib

set_option linter.dupNamespace false

/-!
# API-key service: verification of the coordination core

Shallow embedding of

* `internal/services/ratelimit/window.go` (`newWindow`),
* `internal/services/permissions/check.go` (`service.Check`),
* `pkg/cluster/cluster.go` (`New`, `Self`, `keepInSync`, `FindInstance`,
  `SubscribeJoin`, `SubscribeLeave`),
* `pkg/ctxutil` as exercised by `context_test.go`.

Conventions.  A Go `error` is an `Option Error` (`none` is `nil`).  Go `int64`
values are integers, and `int64` arithmetic that can overflow is written with
`wrap64`; the only such arithmetic reached from the embedded code is inside
Go's `time` package (`UnixMilli`, `Add`).  Interfaces
whose implementation lives in other packages (cache, storage, RBAC evaluator,
hash ring) are parameters of the functions that call them, and they thread an
explicit world state so that "was it called" is observable.  Types and helpers
declared outside the embedded files are modelled from the specification and
marked as such.
-/

/-! ## Go's `time` package (standard library), as far as `newWindow` uses it -/

namespace time

/-- The value an `int64` holds after an arithmetic result `x` wraps around
(two's complement, as Go defines signed overflow). -/
def wrap64 (x : Int) : Int :=
  (x + 9223372036854775808) % 18446744073709551616 - 9223372036854775808

/-- A `time.Duration`: a signed count of nanoseconds (an `int64`). -/
abbrev Duration := Int

/-- The constant `time.Millisecond`. -/
def Millisecond : Duration := 1000000

/-- The constant `time.Second`. -/
def Second : Duration := 1000000000

/-- The constant `time.Hour`. -/
def Hour : Duration := 3600 * Second

/-- Go: `func (d Duration) Milliseconds() int64 { return int64(d) / 1e6 }`
(Go's `/` truncates toward zero). -/
def Duration.Milliseconds (d : Duration) : Int := Int.tdiv d 1000000

/-- A `time.Time` without monotonic reading and location: `sec` is what Go's
`t.sec()` returns (an `int64`, seconds since 1 January of year 1, 00:00:00 UTC,
the zero time) and `nsec` what `t.nsec()` returns (always in
`[0, 999999999]`). -/
structure Time where
  sec : Int
  nsec : Int
  nsec_nonneg : 0 ≤ nsec
  nsec_lt : nsec < 1000000000

/-- Go: `unixToInternal = (1969*365 + 1969/4 - 1969/100 + 1969/400) * secondsPerDay`,
the seconds from the zero time to the Unix epoch. -/
def unixToInternal : Int := (1969 * 365 + 1969 / 4 - 1969 / 100 + 1969 / 400) * 86400

/-- Go: `internalToUnix = -unixToInternal`. -/
def internalToUnix : Int := -unixToInternal

/-- Go: `time.Unix(sec, 0)`, the instant `sec` seconds after the Unix epoch
(`unixTime` stores `sec + unixToInternal` in an `int64`). -/
def Unix (sec : Int) : Time := ⟨wrap64 (sec + unixToInternal), 0, by decide, by decide⟩

/-- Go: `func (t *Time) unixSec() int64 { return t.sec() + internalToUnix }`,
in `int64` arithmetic. -/
def Time.unixSec (t : Time) : Int := wrap64 (t.sec + internalToUnix)

/-- Go: `func (t Time) UnixMilli() int64 { return t.unixSec()*1e3 + int64(t.nsec())/1e6 }`,
in `int64` arithmetic: the product and the sum wrap around. -/
def Time.UnixMilli (t : Time) : Int :=
  wrap64 (wrap64 (t.unixSec * 1000) + Int.tdiv t.nsec 1000000)

/-- The Unix time of `t` in milliseconds as a mathematical integer: what
`UnixMilli` computes when nothing overflows. -/
def Time.unixMilliExact (t : Time) : Int :=
  (t.sec + internalToUnix) * 1000 + t.nsec / 1000000

/-- The instant as nanoseconds since the zero time (the 128-bit quantity that
Go's `div` builds from `t.sec()` and `t.nsec()`). -/
def Time.absNanos (t : Time) : Int := t.sec * 1000000000 + t.nsec

/-- Go's unexported `div(t, d)`, remainder only, for `d > 0`: the remainder of the
time since the zero time modulo `d`, in `[0, d)`.  Go computes it in three
cases (`2d` divides a second, `d` a multiple of a second, the general 128-bit
case) on the absolute value and then replaces `r` by `d - r` for a negative
time that is not a multiple of `d`; all of them give the floor remainder. -/
def div (t : Time) (d : Duration) : Duration := t.absNanos % d

/-- Go: `func (t *Time) addSec(d int64)` on a time without monotonic reading:
`sum := t.ext + d` in `int64`; when the sum did not overflow
(`(sum > t.ext) == (d > 0)`) it is the new second count, otherwise the count
saturates at `1<<63 - 1` or `-(1<<63 - 1)`. -/
def addSec (ext : Int) (d : Int) : Int :=
  if (decide (wrap64 (ext + d) > ext)) = (decide (d > 0)) then wrap64 (ext + d)
  else if d > 0 then 9223372036854775807
  else -9223372036854775807

/-- Go: `func (t Time) Add(d Duration) Time` on a time without monotonic reading:
`dsec := int64(d / 1e9)`, `nsec := t.nsec() + int32(d%1e9)` (truncating
division), one second is carried when `nsec` leaves `[0, 1e9)`, and the seconds
are added with `addSec`. -/
def Time.Add (t : Time) (d : Duration) : Time :=
  if h1 : t.nsec + Int.tmod d 1000000000 ≥ 1000000000 then
    ⟨addSec t.sec (Int.tdiv d 1000000000 + 1), t.nsec + Int.tmod d 1000000000 - 1000000000,
      by omega,
      by have := Int.tmod_lt_of_pos d (show (0 : Int) < 1000000000 by decide)
         have := t.nsec_lt
         omega⟩
  else if h2 : t.nsec + Int.tmod d 1000000000 < 0 then
    ⟨addSec t.sec (Int.tdiv d 1000000000 - 1), t.nsec + Int.tmod d 1000000000 + 1000000000,
      by have hn := t.nsec_nonneg
         rcases Int.le_total 0 d with h | h
         · have := Int.tmod_nonneg 1000000000 h
           omega
         · have h3 := Int.tmod_lt_of_pos (-d) (show (0 : Int) < 1000000000 by decide)
           rw [Int.tmod_def, Int.neg_tdiv] at h3
           have h4 := Int.tmod_def d 1000000000
           omega,
      by omega⟩
  else
    ⟨addSec t.sec (Int.tdiv d 1000000000), t.nsec + Int.tmod d 1000000000, by omega, by omega⟩

/-- Go: `func (t Time) Truncate(d Duration) Time`: "rounds t down to a multiple
of d (since the zero time)"; `if d <= 0 { return t }; _, r := div(t, d);
return t.Add(-r)`. -/
def Time.Truncate (t : Time) (d : Duration) : Time :=
  if d ≤ 0 then t else t.Add (-(div t d))

end time

/-! ## `internal/services/ratelimit/window.go` -/

namespace ratelimit

/-- The protobuf message `ratelimitv1.Window` (four `int64` fields). -/
structure Window where
  Sequence : Int
  Start : Int
  Duration : Int
  Counter : Int
  deriving DecidableEq, Repr

/-- Source: `window.go`, `newWindow`. -/
def newWindow (sequence : Int) (t : time.Time) (duration : time.Duration) : Window :=
  { Sequence := sequence
    Start := (t.Truncate duration).UnixMilli
    Duration := duration.Milliseconds
    Counter := 0 }

end ratelimit

/-! ## Go `error` values and the collaborating packages -/

/-- A non-nil Go `error` value.  `base` is a leaf error (`errors.New`), `wrapf`
the result of `fmt.Errorf("<msg>: %w", cause)`, and `fault` the result of
`fault.Wrap(cause, fault.WithDesc(internal, pub))`.  A Go variable of type
`error` is an `Option Error`, with `none` for `nil`. -/
inductive Error where
  | base (msg : String)
  | wrapf (msg : String) (cause : Error)
  | fault (cause : Error) (internal : String) (pub : String)
  deriving DecidableEq, Repr

/-- Go: `errors.Unwrap(err)`, the error that `err` wraps, if any. -/
def Error.Unwrap : Error → Option Error
  | .base _ => none
  | .wrapf _ cause => some cause
  | .fault cause _ _ => some cause

namespace fault

/-- Modelled from the spec: package `fault` is not among the sources.  Spec §7:
every error "carries a stable kind tag + human message + optional wrapped
cause"; `Wrap(err, WithDesc(internal, pub))` keeps `err` as the wrapped cause
and attaches the description, and wrapping `nil` gives `nil`. -/
def Wrap (err : Option Error) (internal : String) (pub : String) : Option Error :=
  match err with
  | none => none
  | some e => some (Error.fault e internal pub)

end fault

namespace cache

/-- Modelled from the spec: the type `cache.Op` is declared outside the sources.
Spec §4.1 and §9: the outcomes of `decide` are `WriteValue`, `WriteNull`,
`Noop`. -/
inductive Op where
  | Noop
  | WriteValue
  | WriteNull
  deriving DecidableEq, Repr

end cache

namespace rbac

/-- Modelled from the spec: the type `rbac.PermissionQuery` is declared outside
the sources.  Spec §3: "an expression tree over permission identifiers with
nodes `And(children…)`, `Or(children…)`, `Leaf(identifier)`". -/
inductive PermissionQuery where
  | And (children : List PermissionQuery)
  | Or (children : List PermissionQuery)
  | Leaf (identifier : String)

/-- Modelled from the spec: the type `rbac.EvaluationResult` is declared outside
the sources.  Spec §3: evaluation returns `{valid: bool, missing: [identifier]}`. -/
structure EvaluationResult where
  Valid : Bool
  Missing : List String
  deriving DecidableEq, Repr

/-- The Go zero value `rbac.EvaluationResult{}`. -/
def EvaluationResult.zero : EvaluationResult := { Valid := false, Missing := [] }

end rbac

namespace db

/-- The parameter struct `db.FindPermissionsForKeyParams` as `check.go` builds it. -/
structure FindPermissionsForKeyParams where
  KeyID : String
  deriving DecidableEq, Repr

end db

/-! ## `internal/services/permissions` -/

namespace permissions

/-- Source: `service.go`, `type service struct`, seen through the calls that
`check.go` makes on its fields.  `σ` is the state of the world outside the
function (cache contents, database, spans, logs); every call takes the world
and returns the new one.

* `cacheSWR key loader decide` is `s.cache.SWR(ctx, key, loader, decide)`;
* `findPermissionsForKey params` is
  `db.Query.FindPermissionsForKey(ctx, s.db.RO(), params)`;
* `evaluatePermissions query permissions` is
  `s.rbac.EvaluatePermissions(query, permissions)`. -/
structure service (σ : Type) where
  cacheSWR : String → (σ → (List String × Option Error) × σ) → (Option Error → cache.Op) →
    σ → (List String × Option Error) × σ
  findPermissionsForKey : db.FindPermissionsForKeyParams → σ → (List String × Option Error) × σ
  evaluatePermissions : rbac.PermissionQuery → List String →
    σ → (rbac.EvaluationResult × Option Error) × σ

/-- Source: `check.go`, the loader closure passed to `SWR`:
`func(ctx) ([]string, error) { return db.Query.FindPermissionsForKey(ctx, s.db.RO(),
db.FindPermissionsForKeyParams{KeyID: keyID}) }`. -/
def Check.loader {σ : Type} (s : service σ) (keyID : String) :
    σ → (List String × Option Error) × σ :=
  fun w => s.findPermissionsForKey { KeyID := keyID } w

/-- Source: `check.go`, the cache-policy closure passed to `SWR`:
`func(err error) cache.Op { if err == nil { return cache.WriteValue }; return cache.Noop }`. -/
def Check.decide (err : Option Error) : cache.Op :=
  if err = none then cache.Op.WriteValue else cache.Op.Noop

/-- Source: `check.go`, `func (s *service) Check(ctx, keyID, query)`.  The
tracing span (`tracing.Start`, `span.End`) does not influence the result and
is left out. -/
def Check {σ : Type} (s : service σ) (keyID : String) (query : rbac.PermissionQuery) (w : σ) :
    (rbac.EvaluationResult × Option Error) × σ :=
  match s.cacheSWR keyID (Check.loader s keyID) Check.decide w with
  | ((permissions, err), w1) =>
    if err ≠ none then
      ((rbac.EvaluationResult.zero, fault.Wrap err "unable to laod permissions from db" ""), w1)
    else
      s.evaluatePermissions query permissions w1

end permissions

/-! ## Packages used by `pkg/cluster` -/

namespace fmt

/-- Go: `fmt.Sprintf("%s:%d", s, d)` for a string and an integer: the string, a
colon, and the integer in decimal (with a leading `-` when negative). -/
def Sprintf_s_colon_d (s : String) (d : Int) : String := s ++ ":" ++ toString d

end fmt

namespace membership

/-- Modelled from the spec: the event type of package `membership` is declared
outside the sources.  Spec §4.2: "Each `Instance = {instance_id, host,
rpc_port, …}`"; `cluster.go` reads the fields `InstanceID`, `Host`, `RpcPort`. -/
structure Instance where
  InstanceID : String
  Host : String
  RpcPort : Int
  deriving DecidableEq, Repr

/-- One receive of the `select` in `keepInSync`: a value taken from the channel
of `SubscribeJoinEvents()` or from the channel of `SubscribeLeaveEvents()`. -/
inductive Event where
  | join (member : Instance)
  | leave (member : Instance)
  deriving DecidableEq, Repr

end membership

namespace events

/-- Modelled from the spec: package `events` is not among the sources.  Spec
§4.4 and §9: typed one-way event channels.  A topic is represented by the
events emitted on it since its creation, oldest first. -/
structure Topic (E : Type) where
  emitted : List E
  deriving DecidableEq, Repr

/-- Modelled from the spec: `events.NewTopic[E]()`, a topic on which nothing has
been emitted. -/
def NewTopic {E : Type} : Topic E := { emitted := [] }

/-- Modelled from the spec: publishing one event on the topic (§4.4: "Re-publishes
the events on its own typed channels"); every subscriber receives it.
`cluster.go` contains no call of it. -/
def Topic.Emit {E : Type} (t : Topic E) (event : E) : Topic E :=
  { emitted := t.emitted ++ [event] }

/-- Modelled from the spec: `topic.Subscribe(name)`; the channel is represented by
the events it receives when it was subscribed at the topic's creation, i.e.
everything emitted on the topic. -/
def Topic.Subscribe {E : Type} (t : Topic E) (_name : String) : List E := t.emitted

end events

namespace logging

/-- The severity of a log line. -/
inductive Level where
  | Info
  | Error
  deriving DecidableEq, Repr

/-- One call of `logger.Info(msg, ...)` or `logger.Error(msg, ...)`; the
key/value attributes are left out. -/
structure Line where
  level : Level
  msg : String
  deriving DecidableEq, Repr

end logging

namespace ring

/-- The type `ring.Node[T]` as `cluster.go` builds and reads it. -/
structure Node (T : Type) where
  ID : String
  Tags : T
  deriving DecidableEq, Repr

/-- The type `ring.Config` as `cluster.go` builds it (the logger is left out). -/
structure Config where
  TokensPerNode : Nat
  deriving DecidableEq, Repr

/-- The functions of package `ring` that `cluster.go` calls, for a ring whose
state is a `ρ`: `ring.New[T](config)`, `r.AddNode(ctx, node)`,
`r.RemoveNode(ctx, id)` and `r.FindNode(key)`.  The package is not among the
sources, so the cluster takes its operations as a parameter.  A mutation
returns the ring it leaves behind together with its `error`. -/
structure Ring (ρ : Type) (T : Type) where
  New : Config → Except Error ρ
  AddNode : ρ → Node T → ρ × Option Error
  RemoveNode : ρ → String → ρ × Option Error
  FindNode : ρ → String → Node T × Option Error

/-- A call that changes the ring. -/
inductive Mutation (T : Type) where
  | AddNode (node : Node T)
  | RemoveNode (id : String)
  deriving DecidableEq, Repr

/-- Perform one mutation on a ring. -/
def Ring.apply {ρ T : Type} (R : Ring ρ T) (r : ρ) : Mutation T → ρ × Option Error
  | .AddNode node => R.AddNode r node
  | .RemoveNode id => R.RemoveNode r id

/-- A ring that only records the mutations it is asked to perform, oldest first,
and never fails; `FindNode` answers with the node added first. -/
def recorder {T : Type} (zero : T) : Ring (List (Mutation T)) T where
  New := fun _ => .ok []
  AddNode := fun r node => (r ++ [.AddNode node], none)
  RemoveNode := fun r id => (r ++ [.RemoveNode id], none)
  FindNode := fun r _ =>
    match r with
    | .AddNode node :: _ => (node, none)
    | _ => ({ ID := "", Tags := zero }, some (Error.base "NoNodes"))

/-- A ring like `recorder` whose every mutation reports the given error. -/
def failing {T : Type} (zero : T) (err : Error) : Ring (List (Mutation T)) T where
  New := fun _ => .ok []
  AddNode := fun r node => (r ++ [.AddNode node], some err)
  RemoveNode := fun r id => (r ++ [.RemoveNode id], some err)
  FindNode := fun _ _ => ({ ID := "", Tags := zero }, some err)

/-- Modelled from the spec: the hash functions of package `ring`, which is not
among the sources.  Spec §4.3: token positions are "derived from a stable hash
of `(node_id, token_index)`" and `FindNode` begins by "hash `key` to a 64-bit
position". -/
structure Hash where
  token : String → Nat → Nat
  key : String → Nat

/-- Modelled from the spec: one virtual token, a position on the ring and the
node that owns it. -/
structure Token (T : Type) where
  position : Nat
  node : Node T

/-- Modelled from the spec: the state of the hash ring of §4.3, its tokens kept
"in a sorted structure keyed by position". -/
structure State (T : Type) where
  tokensPerNode : Nat
  tokens : List (Token T)

/-- Modelled from the spec: the order of the tokens, "by token position then
node_id" (§4.3). -/
def Token.before {T : Type} (a b : Token T) : Bool :=
  decide (a.position < b.position) ||
    (decide (a.position = b.position) && decide (a.node.ID ≤ b.node.ID))

/-- Modelled from the spec: insert one token at its place in the sorted list. -/
def insertToken {T : Type} (tok : Token T) : List (Token T) → List (Token T)
  | [] => [tok]
  | head :: rest => if tok.before head then tok :: head :: rest else head :: insertToken tok rest

/-- The error of `FindNode` on a ring without nodes (spec §4.3: "a `NoNodes`
error"). -/
def NoNodes : Error := Error.base "NoNodes"

/-- Modelled from the spec: the hash ring of §4.3, package `ring` not being among
the sources.  `AddNode` inserts `TokensPerNode` tokens of the node and is
"idempotent per `node_id` (replaces existing)"; `RemoveNode` removes all tokens
of the id; `FindNode` returns "the node owning the first token whose position
is `≥ p`, wrapping around at the end", and on an empty ring a `NoNodes`
error. -/
def spec {T : Type} (zero : T) (h : Hash) : Ring (State T) T where
  New := fun config => .ok { tokensPerNode := config.TokensPerNode, tokens := [] }
  AddNode := fun r node =>
    ({ r with
        tokens := (List.range r.tokensPerNode).foldl
          (fun toks i => insertToken { position := h.token node.ID i, node := node } toks)
          (r.tokens.filter (fun tok => tok.node.ID ≠ node.ID)) }, none)
  RemoveNode := fun r id =>
    ({ r with tokens := r.tokens.filter (fun tok => tok.node.ID ≠ id) }, none)
  FindNode := fun r key =>
    match r.tokens with
    | [] => ({ ID := "", Tags := zero }, some NoNodes)
    | first :: rest =>
      (((first :: rest).find? (fun tok => decide (h.key key ≤ tok.position))).getD first |>.node,
        none)

end ring

/-! ## `pkg/cluster/cluster.go` -/

namespace cluster

/-- Modelled from the spec: the type `cluster.Instance` is declared in a file of
the package that is not among the sources.  Spec §4.4: `FindInstance` "returns
the owning instance's RPC address"; `cluster.go` uses the fields `ID` and
`RpcAddr`. -/
structure Instance where
  ID : String
  RpcAddr : String
  deriving DecidableEq, Repr

/-- The Go zero value `Instance{}`. -/
def Instance.zero : Instance := { ID := "", RpcAddr := "" }

/-- Source: `cluster.go`, `type Config struct`.  The membership is represented by
the events it delivers (the argument of `keepInSync`), the logger by the lines
written to it. -/
structure Config where
  Self : Instance
  deriving DecidableEq, Repr

/-- Source: `cluster.go`, `type cluster struct`.  `ring` is the current state of
the ring behind the pointer, `logger` the lines logged so far. -/
structure cluster (ρ : Type) where
  self : Instance
  ring : ρ
  logger : List logging.Line
  joinEvents : events.Topic Instance
  leaveEvents : events.Topic Instance

/-- Source: `cluster.go`, `registerMetrics`: returns the error of
`metrics.Cluster.Size.RegisterCallback(...)`, given here as `registered`. -/
def registerMetrics (registered : Option Error) : Option Error :=
  match registered with
  | some err => some err
  | none => none

/-- Source: `cluster.go`, `func New(config Config) (*cluster, error)`.  `R` is
package `ring`, `registered` the outcome of registering the size metric.  The
reconciler started by `go c.keepInSync()` is the function `keepInSync`
below. -/
def New {ρ : Type} (R : ring.Ring ρ Instance) (registered : Option Error) (config : Config) :
    Except Error (cluster ρ) :=
  match R.New { TokensPerNode := 256 } with
  | .error err => .error (Error.wrapf "unable to create hash ring" err)
  | .ok r =>
    match registerMetrics registered with
    | some err => .error err
    | none =>
      match R.AddNode r { ID := config.Self.ID, Tags := config.Self } with
      | (_, some err) => .error err
      | (r1, none) =>
        .ok { self := config.Self
              ring := r1
              logger := []
              joinEvents := events.NewTopic
              leaveEvents := events.NewTopic }

/-- Source: `cluster.go`, `func (c *cluster) Self() Instance`. -/
def cluster.Self {ρ : Type} (c : cluster ρ) : Instance := c.self

/-- Source: `cluster.go`, `SubscribeJoin`. -/
def cluster.SubscribeJoin {ρ : Type} (c : cluster ρ) : List Instance :=
  c.joinEvents.Subscribe "cluster.joinEvents"

/-- Source: `cluster.go`, `SubscribeLeave`. -/
def cluster.SubscribeLeave {ρ : Type} (c : cluster ρ) : List Instance :=
  c.leaveEvents.Subscribe "cluster.leaveEvents"

/-- Source: `cluster.go`, `keepInSync`, one iteration of the `for { select {...} }`
loop, for the event that the `select` received. -/
def keepInSync.step {ρ : Type} (R : ring.Ring ρ Instance) (c : cluster ρ) :
    membership.Event → cluster ρ
  | .join inst =>
    let logged := c.logger ++ [{ level := .Info, msg := "instance joined" }]
    match R.AddNode c.ring
        { ID := inst.InstanceID
          Tags := { RpcAddr := fmt.Sprintf_s_colon_d inst.Host inst.RpcPort
                    ID := inst.InstanceID } } with
    | (r1, some _) =>
      { c with ring := r1
               logger := logged ++ [{ level := .Error, msg := "failed to add node to ring" }] }
    | (r1, none) => { c with ring := r1, logger := logged }
  | .leave inst =>
    let logged := c.logger ++ [{ level := .Info, msg := "instance left" }]
    match R.RemoveNode c.ring inst.InstanceID with
    | (r1, some _) =>
      { c with ring := r1
               logger := logged ++ [{ level := .Error, msg := "failed to remove node from ring" }] }
    | (r1, none) => { c with ring := r1, logger := logged }

/-- Source: `cluster.go`, `keepInSync`.  The loop never returns; this is the
cluster after the loop has consumed the given events, in the order in which
the `select` received them. -/
def keepInSync {ρ : Type} (R : ring.Ring ρ Instance) (c : cluster ρ)
    (received : List membership.Event) : cluster ρ :=
  received.foldl (keepInSync.step R) c

/-- Source: `cluster.go`, `func (c *cluster) FindInstance(ctx, key) (Instance, error)`. -/
def cluster.FindInstance {ρ : Type} (R : ring.Ring ρ Instance) (c : cluster ρ) (key : String) :
    Instance × Option Error :=
  match R.FindNode c.ring key with
  | (_, some err) => (Instance.zero, some err)
  | (node, none) => (node.Tags, none)

/-- The ring mutation that mirrors a membership event (spec §4.4, item 2): a
join adds the node of the instance, a leave removes the node with its id. -/
def mirror : membership.Event → ring.Mutation Instance
  | .join m =>
    .AddNode { ID := m.InstanceID
               Tags := { ID := m.InstanceID
                         RpcAddr := m.Host ++ ":" ++ toString m.RpcPort } }
  | .leave m => .RemoveNode m.InstanceID

end cluster

/-! ## Go's `context` package and `pkg/ctxutil` -/

namespace context

end context

namespace ctxutil

end ctxutil

/-! ## Concrete collaborators used in the examples -/

namespace permissions

/-- A permission service over a world that is the list of calls made so far:
the cache always misses and runs the loader, storage answers from the table
`stored`, and the evaluator accepts a leaf that is in the granted list. -/
def fixture (stored : String → List String × Option Error) : service (List String) where
  cacheSWR := fun key loader _ w => loader (w ++ ["cache.SWR " ++ key])
  findPermissionsForKey := fun params w =>
    (stored params.KeyID, w ++ ["db.FindPermissionsForKey " ++ params.KeyID])
  evaluatePermissions := fun query permissions w =>
    (match query with
      | .Leaf p => ({ Valid := permissions.contains p,
                      Missing := if permissions.contains p then [] else [p] }, none)
      | _ => ({ Valid := false, Missing := [] }, none),
     w ++ ["rbac.EvaluatePermissions"])

/-- A permission service whose cache asks the policy it is handed about each of
the errors `errs` and writes the answers to the world. -/
def probe (errs : List (Option Error)) : service (List cache.Op) where
  cacheSWR := fun _ _ decide w => (([], none), w ++ errs.map decide)
  findPermissionsForKey := fun _ w => (([], none), w)
  evaluatePermissions := fun _ _ w => ((rbac.EvaluationResult.zero, none), w)

/-- A storage table: `key_1` is granted `docs.read`, reading `key_2` fails. -/
def fixtureStored (keyID : String) : List String × Option Error :=
  if keyID = "key_1" then (["docs.read"], none)
  else if keyID = "key_2" then ([], some (Error.base "StoreUnavailable"))
  else ([], none)

end permissions

namespace cluster

/-- A hash for the examples: the token `i` of a node sits at `10 * length(id) + i`,
a key at its length. -/
def fixtureHash : ring.Hash where
  token := fun id i => 10 * id.length + i
  key := fun key => key.length

/-- The local node of the examples. -/
def fixtureSelf : Instance := { ID := "node_1", RpcAddr := "10.0.0.1:9000" }

/-- A member of the examples. -/
def fixtureMember : membership.Instance :=
  { InstanceID := "node_2", Host := "10.0.0.2", RpcPort := 9000 }

/-- A cluster over the ring of spec §4.3 with no node in it. -/
def fixtureEmpty : cluster (ring.State Instance) :=
  { self := fixtureSelf
    ring := { tokensPerNode := 256, tokens := [] }
    logger := []
    joinEvents := events.NewTopic
    leaveEvents := events.NewTopic }

/-- A cluster over the recording ring, as `New` leaves it. -/
def fixtureCluster : cluster (List (ring.Mutation Instance)) :=
  { self := fixtureSelf
    ring := [.AddNode { ID := "node_1", Tags := fixtureSelf }]
    logger := []
    joinEvents := events.NewTopic
    leaveEvents := events.NewTopic }

end cluster


/-! ## Facts about the time model -/

namespace time

theorem unixToInternal_eq : unixToInternal = 62135596800 := by decide

/-- An `int64` result that is representable does not wrap. -/
theorem wrap64_of_fits (x : Int) (h1 : -9223372036854775808 ≤ x)
    (h2 : x ≤ 9223372036854775807) : wrap64 x = x := by
  unfold wrap64
  omega

/-- `UnixMilli` is the exact Unix time in milliseconds, wrapped once. -/
theorem UnixMilli_eq_wrap (t : Time) : t.UnixMilli = wrap64 t.unixMilliExact := by
  have h1 := t.nsec_nonneg
  simp only [Time.UnixMilli, Time.unixSec, Time.unixMilliExact, wrap64]
  rw [Int.tdiv_eq_ediv h1 (by decide)]
  omega

theorem UnixMilli_of_fits (t : Time) (h1 : -9223372036854775808 ≤ t.unixMilliExact)
    (h2 : t.unixMilliExact ≤ 9223372036854775807) : t.UnixMilli = t.unixMilliExact := by
  rw [UnixMilli_eq_wrap, wrap64_of_fits _ h1 h2]

theorem unixMilliExact_eq (t : Time) :
    t.unixMilliExact = t.absNanos / 1000000 - 62135596800000 := by
  have h1 := t.nsec_nonneg
  have h2 := t.nsec_lt
  simp only [Time.unixMilliExact, Time.absNanos, internalToUnix, unixToInternal_eq]
  omega

theorem tmod_second_bounds (d : Int) :
    -1000000000 < Int.tmod d 1000000000 ∧ Int.tmod d 1000000000 < 1000000000 := by
  refine ⟨?_, Int.tmod_lt_of_pos d (by decide)⟩
  rcases Int.le_total 0 d with h | h
  · have := Int.tmod_nonneg 1000000000 h
    omega
  · have h1 : Int.tmod (-d) 1000000000 < 1000000000 := Int.tmod_lt_of_pos (-d) (by decide)
    rw [Int.tmod_def, Int.neg_tdiv] at h1
    have h2 := Int.tmod_def d 1000000000
    omega

/-- Seconds that stay representable are added without saturation. -/
theorem addSec_of_fits (ext d : Int) (h1 : -9223372036854775808 ≤ ext + d)
    (h2 : ext + d ≤ 9223372036854775807) : addSec ext d = ext + d := by
  unfold addSec
  rw [wrap64_of_fits _ h1 h2, if_pos]
  simp only [decide_eq_decide]
  omega

/-- Away from the ends of the `int64` range of seconds, `Add` adds. -/
theorem absNanos_Add (t : Time) (d : Int)
    (hs1 : -4611686018427387904 ≤ t.sec) (hs2 : t.sec ≤ 4611686018427387904)
    (hd1 : -9223372036854775808 ≤ d) (hd2 : d ≤ 9223372036854775807) :
    (t.Add d).absNanos = t.absNanos + d := by
  have h := Int.tdiv_add_tmod d 1000000000
  have hb := tmod_second_bounds d
  unfold Time.Add
  split
  · simp only [Time.absNanos]
    rw [addSec_of_fits _ _ (by omega) (by omega)]
    omega
  · split
    · simp only [Time.absNanos]
      rw [addSec_of_fits _ _ (by omega) (by omega)]
      omega
    · simp only [Time.absNanos]
      rw [addSec_of_fits _ _ (by omega) (by omega)]
      omega

theorem absNanos_Truncate (t : Time) (d : Int) (hd : 0 < d) (hd2 : d ≤ 9223372036854775807)
    (hs1 : -4611686018427387904 ≤ t.sec) (hs2 : t.sec ≤ 4611686018427387904) :
    (t.Truncate d).absNanos = t.absNanos - t.absNanos % d := by
  have h0 := Int.emod_nonneg t.absNanos (Int.ne_of_gt hd)
  have h1 := Int.emod_lt_of_pos t.absNanos hd
  unfold Time.Truncate
  rw [if_neg (not_le.mpr hd), absNanos_Add t _ hs1 hs2 (by simp only [div]; omega)
    (by simp only [div]; omega)]
  simp only [div]
  omega

theorem Milliseconds_eq (d : Int) (hd : 0 < d) : Duration.Milliseconds d = d / 1000000 := by
  simp only [Duration.Milliseconds]
  exact Int.tdiv_eq_ediv (by omega) (by decide)

/-- Rounding `a` down to a multiple of `1000000 * m` and then counting whole
millions is rounding the whole millions of `a` down to a multiple of `m`. -/
theorem trunc_millis (a m : Int) (hm : 0 < m) :
    (a - a % (1000000 * m)) / 1000000 = m * (a / 1000000 / m) := by
  have hpos : (0 : Int) < 1000000 * m := by omega
  have h0 := Int.emod_nonneg a (Int.ne_of_gt hpos)
  have h1 := Int.emod_lt_of_pos a hpos
  have h2 := Int.emod_add_ediv a (1000000 * m)
  have hq : a / 1000000 / m = a / (1000000 * m) := by
    have e1 : 1000000 * m * (a / (1000000 * m)) = 1000000 * (a / (1000000 * m) * m) := by ring
    rw [e1] at h2
    apply le_antisymm
    · have : a / 1000000 / m < a / (1000000 * m) + 1 := by
        rw [Int.ediv_lt_iff_lt_mul hm]
        have e2 : (a / (1000000 * m) + 1) * m = a / (1000000 * m) * m + m := by ring
        rw [e2]
        omega
      omega
    · rw [Int.le_ediv_iff_mul_le hm]
      omega
  rw [hq]
  have e3 : a - a % (1000000 * m) = 1000000 * (m * (a / (1000000 * m))) := by
    have : 1000000 * m * (a / (1000000 * m)) = 1000000 * (m * (a / (1000000 * m))) := by ring
    omega
  rw [e3, Int.mul_ediv_cancel_left _ (by decide)]

/-- The exact Unix milliseconds of a truncated time, for an `int64` duration of
`m > 0` whole milliseconds and a time whose Unix milliseconds are representable:
the milliseconds since the zero time are rounded down to a multiple of `m`, and
the result is read back relative to the Unix epoch. -/
theorem unixMilliExact_Truncate (t : Time) (d : Int) (hd : 0 < d)
    (hd2 : d ≤ 9223372036854775807) (hms : d % 1000000 = 0)
    (h1 : -9223372036854775808 ≤ t.unixMilliExact)
    (h2 : t.unixMilliExact ≤ 9223372036854775807) :
    (t.Truncate d).unixMilliExact =
      Duration.Milliseconds d * ((t.unixMilliExact + 62135596800000) / Duration.Milliseconds d)
        - 62135596800000 := by
  have hm : 0 < d / 1000000 := by omega
  have hdm : d = 1000000 * (d / 1000000) := by omega
  have hn1 := t.nsec_nonneg
  have hn2 := t.nsec_lt
  have hsec : -4611686018427387904 ≤ t.sec ∧ t.sec ≤ 4611686018427387904 := by
    simp only [Time.unixMilliExact, internalToUnix, unixToInternal_eq] at h1 h2
    omega
  rw [unixMilliExact_eq (t.Truncate d), absNanos_Truncate t d hd hd2 hsec.1 hsec.2,
    Milliseconds_eq d hd, unixMilliExact_eq t]
  have h := trunc_millis t.absNanos (d / 1000000) hm
  rw [← hdm] at h
  rw [h]
  have e : t.absNanos / 1000000 - 62135596800000 + 62135596800000 = t.absNanos / 1000000 := by
    omega
  rw [e]

end time

/-! ## The rate-limit window -/

namespace ratelimit

/-- C1 on the code: at the Unix epoch with a window of seven days the sequence is
`floor(0 / 604800000) = 0`, but `Truncate` rounds down to a multiple of seven
days counted from Go's zero time (a Monday), so `Start` is `-259200000`
(Monday 29 December 1969) and not `Sequence * Duration = 0`.  Four days later
(Monday 5 January 1970) the sequence is still `0` and `Start` is `345600000`:
one sequence, two starts, neither of them `Sequence * Duration`. -/
theorem newWindow_start_ne_sequence_mul_duration_week :
    (0 : Int) < 7 * 24 * time.Hour ∧ (7 * 24 * time.Hour) % 1000000 = 0 ∧
    (0 : Int) = (time.Unix 0).UnixMilli / time.Duration.Milliseconds (7 * 24 * time.Hour) ∧
    (newWindow 0 (time.Unix 0) (7 * 24 * time.Hour)).Duration = 604800000 ∧
    (newWindow 0 (time.Unix 0) (7 * 24 * time.Hour)).Start = -259200000 ∧
    (newWindow 0 (time.Unix 0) (7 * 24 * time.Hour)).Start ≠
      (newWindow 0 (time.Unix 0) (7 * 24 * time.Hour)).Sequence *
        (newWindow 0 (time.Unix 0) (7 * 24 * time.Hour)).Duration ∧
    (0 : Int) = (time.Unix 345600).UnixMilli / time.Duration.Milliseconds (7 * 24 * time.Hour) ∧
    (newWindow 0 (time.Unix 345600) (7 * 24 * time.Hour)).Start = 345600000 := by
  decide

/-- C10, as stated, fails where `int64` milliseconds overflow: for the instant
`time.Unix(9223372036854776, 0)` and a window of one hour, `t.UnixMilli()` has
wrapped around to `-9223372036854775616` while the truncated time is still
representable, `Start = 9223372036854000000`, so `Start ≤ t.UnixMilli` is
false. -/
theorem newWindow_start_after_instant_on_overflow :
    (0 : Int) < time.Hour ∧ time.Hour % 1000000 = 0 ∧
    (time.Unix 9223372036854776).UnixMilli = -9223372036854775616 ∧
    (newWindow 0 (time.Unix 9223372036854776) time.Hour).Start = 9223372036854000000 ∧
    ¬ ((newWindow 0 (time.Unix 9223372036854776) time.Hour).Start ≤
        (time.Unix 9223372036854776).UnixMilli) := by
  decide

/-- C10, amended: for every sequence number `seq`, every positive duration `d`
(an `int64` count of nanoseconds) of a whole number of milliseconds, and every
instant `t` such that the Unix time in milliseconds of `t` and that of the
window start `t.Truncate(d)` are representable as `int64`, `newWindow seq t d`
is an empty window that covers `t`: `Counter = 0`, `Sequence = seq`,
`Duration` is `d` in milliseconds, and `Start ≤ t.UnixMilli < Start + Duration`. -/
theorem newWindow_covers_creation_instant (t : time.Time) (d seq : Int)
    (hd : 0 < d) (hd2 : d ≤ 9223372036854775807) (hms : d % 1000000 = 0)
    (hlo : -9223372036854775808 ≤ t.unixMilliExact)
    (hhi : t.unixMilliExact ≤ 9223372036854775807)
    (hstart : -9223372036854775808 ≤ (t.Truncate d).unixMilliExact) :
    (newWindow seq t d).Counter = 0 ∧
    (newWindow seq t d).Sequence = seq ∧
    (newWindow seq t d).Duration * 1000000 = d ∧
    (newWindow seq t d).Start ≤ t.UnixMilli ∧
    t.UnixMilli < (newWindow seq t d).Start + (newWindow seq t d).Duration := by
  have hm : 0 < time.Duration.Milliseconds d := by
    rw [time.Milliseconds_eq d hd]; omega
  have hdur : time.Duration.Milliseconds d * 1000000 = d := by
    rw [time.Milliseconds_eq d hd]; omega
  have htr := time.unixMilliExact_Truncate t d hd hd2 hms hlo hhi
  have e1 := Int.emod_add_ediv (t.unixMilliExact + 62135596800000) (time.Duration.Milliseconds d)
  have e2 := Int.emod_nonneg (t.unixMilliExact + 62135596800000) (Int.ne_of_gt hm)
  have e3 := Int.emod_lt_of_pos (t.unixMilliExact + 62135596800000) hm
  have hs : (t.Truncate d).UnixMilli = (t.Truncate d).unixMilliExact :=
    time.UnixMilli_of_fits _ hstart (by omega)
  simp only [newWindow]
  rw [hs, time.UnixMilli_of_fits t hlo hhi, htr]
  refine ⟨trivial, trivial, hdur, ?_, ?_⟩
  · omega
  · omega

/-- Witness for C10 amended: 1.5 seconds before the Unix epoch, with a window of
one second. -/
theorem newWindow_covers_creation_instant_witness :
    (0 : Int) < time.Second ∧ time.Second ≤ 9223372036854775807 ∧
    time.Second % 1000000 = 0 ∧
    -9223372036854775808 ≤ ((time.Unix (-2)).Add (500 * time.Millisecond)).unixMilliExact ∧
    ((time.Unix (-2)).Add (500 * time.Millisecond)).unixMilliExact ≤ 9223372036854775807 ∧
    -9223372036854775808 ≤
      (((time.Unix (-2)).Add (500 * time.Millisecond)).Truncate time.Second).unixMilliExact ∧
    (newWindow 7 ((time.Unix (-2)).Add (500 * time.Millisecond)) time.Second).Counter = 0 ∧
    (newWindow 7 ((time.Unix (-2)).Add (500 * time.Millisecond)) time.Second).Sequence = 7 ∧
    (newWindow 7 ((time.Unix (-2)).Add (500 * time.Millisecond)) time.Second).Duration
      * 1000000 = time.Second ∧
    (newWindow 7 ((time.Unix (-2)).Add (500 * time.Millisecond)) time.Second).Start ≤
      ((time.Unix (-2)).Add (500 * time.Millisecond)).UnixMilli ∧
    ((time.Unix (-2)).Add (500 * time.Millisecond)).UnixMilli <
      (newWindow 7 ((time.Unix (-2)).Add (500 * time.Millisecond)) time.Second).Start +
        (newWindow 7 ((time.Unix (-2)).Add (500 * time.Millisecond)) time.Second).Duration :=
  ⟨by decide, by decide, by decide, by decide, by decide, by decide,
    newWindow_covers_creation_instant ((time.Unix (-2)).Add (500 * time.Millisecond))
      time.Second 7 (by decide) (by decide) (by decide) (by decide) (by decide) (by decide)⟩

end ratelimit

/-! ## The permission service -/

namespace permissions

/-- C2: for every service, key id `k`, query `q` and world, when the SWR call that
`Check` makes (on the cache, under the key `k`, with a loader that asks storage
for the permissions of `k`, and with `Check`'s cache policy) returns a granted
list `P` with a nil error, `Check k q` returns exactly what the RBAC evaluator
returns for `q` and `P`, result and error. -/
theorem Check_delegates_to_rbac {σ : Type} (s : service σ) (k : String)
    (q : rbac.PermissionQuery) (w w1 : σ) (P : List String)
    (h : s.cacheSWR k (fun world => s.findPermissionsForKey { KeyID := k } world)
          Check.decide w = ((P, none), w1)) :
    Check s k q w = s.evaluatePermissions q P w1 := by
  have h1 : s.cacheSWR k (Check.loader s k) Check.decide w = ((P, none), w1) := h
  simp [Check, h1]

/-- Witness for C2: the key `key_1`, granted `docs.read`, asked for `docs.read`;
the world records the cache lookup and the storage query for `key_1`. -/
theorem Check_delegates_to_rbac_witness :
    (fixture fixtureStored).cacheSWR "key_1"
        (fun world => (fixture fixtureStored).findPermissionsForKey { KeyID := "key_1" } world)
        Check.decide []
      = ((["docs.read"], none), ["cache.SWR key_1", "db.FindPermissionsForKey key_1"]) ∧
    Check (fixture fixtureStored) "key_1" (.Leaf "docs.read") []
      = (fixture fixtureStored).evaluatePermissions (.Leaf "docs.read") ["docs.read"]
          ["cache.SWR key_1", "db.FindPermissionsForKey key_1"] :=
  ⟨by decide,
    Check_delegates_to_rbac (fixture fixtureStored) "key_1" (.Leaf "docs.read") []
      ["cache.SWR key_1", "db.FindPermissionsForKey key_1"] ["docs.read"] (by decide)⟩

/-- C3: the cache policy that `Check` passes to `SWR` answers `WriteValue` for a
nil error and `Noop` for every non-nil error, and never `WriteNull`; a cache
that asks the policy handed over by `Check` about any list of errors gets
exactly these answers. -/
theorem Check_decide_policy :
    Check.decide none = cache.Op.WriteValue ∧
    (∀ err : Error, Check.decide (some err) = cache.Op.Noop) ∧
    (∀ err : Option Error, Check.decide err ≠ cache.Op.WriteNull) ∧
    (∀ (errs : List (Option Error)) (k : String) (q : rbac.PermissionQuery),
      (Check (probe errs) k q []).2
        = errs.map (fun err =>
            match err with
            | none => cache.Op.WriteValue
            | some _ => cache.Op.Noop)) := by
  refine ⟨rfl, fun err => rfl, fun err => ?_, fun errs k q => ?_⟩
  · cases err <;> simp [Check.decide]
  · simp only [Check, probe, List.nil_append]
    apply List.map_congr_left
    intro err _
    cases err <;> simp [Check.decide]

/-- C9: `Check` fails closed.  When the SWR call that `Check` makes returns a
non-nil error `err`, `Check` returns the zero `EvaluationResult` (`Valid =
false`) with a non-nil error that wraps `err`, and the world is left as the SWR
call left it, whatever evaluator the service has: the evaluator is not
invoked. -/
theorem Check_fails_closed {σ : Type} (s : service σ) (k : String)
    (q : rbac.PermissionQuery) (w w1 : σ) (P : List String) (err : Error)
    (h : s.cacheSWR k (fun world => s.findPermissionsForKey { KeyID := k } world)
          Check.decide w = ((P, some err), w1)) :
    (∃ wrapped : Error,
      Check s k q w = ((rbac.EvaluationResult.zero, some wrapped), w1) ∧
      wrapped.Unwrap = some err) ∧
    (Check s k q w).1.1.Valid = false ∧
    (∀ evaluate, Check { s with evaluatePermissions := evaluate } k q w = Check s k q w) := by
  have h1 : s.cacheSWR k (Check.loader s k) Check.decide w = ((P, some err), w1) := h
  have h2 : ∀ evaluate,
      Check { s with evaluatePermissions := evaluate } k q w
        = ((rbac.EvaluationResult.zero,
            some (Error.fault err "unable to laod permissions from db" "")), w1) := by
    intro evaluate
    have h3 : s.cacheSWR k (Check.loader { s with evaluatePermissions := evaluate } k)
        Check.decide w = ((P, some err), w1) := h
    simp [Check, h3, fault.Wrap]
  have h4 : Check s k q w
      = ((rbac.EvaluationResult.zero,
          some (Error.fault err "unable to laod permissions from db" "")), w1) := by
    simp [Check, h1, fault.Wrap]
  refine ⟨⟨_, h4, rfl⟩, ?_, ?_⟩
  · rw [h4]; rfl
  · intro evaluate
    rw [h2 evaluate, h4]

/-- Witness for C9: reading the permissions of `key_2` fails in storage. -/
theorem Check_fails_closed_witness :
    (fixture fixtureStored).cacheSWR "key_2"
        (fun world => (fixture fixtureStored).findPermissionsForKey { KeyID := "key_2" } world)
        Check.decide []
      = (([], some (Error.base "StoreUnavailable")),
          ["cache.SWR key_2", "db.FindPermissionsForKey key_2"]) ∧
    ((∃ wrapped : Error,
      Check (fixture fixtureStored) "key_2" (.Leaf "docs.read") []
        = ((rbac.EvaluationResult.zero, some wrapped),
            ["cache.SWR key_2", "db.FindPermissionsForKey key_2"]) ∧
      wrapped.Unwrap = some (Error.base "StoreUnavailable")) ∧
    (Check (fixture fixtureStored) "key_2" (.Leaf "docs.read") []).1.1.Valid = false ∧
    (∀ evaluate,
      Check { fixture fixtureStored with evaluatePermissions := evaluate } "key_2"
          (.Leaf "docs.read") []
        = Check (fixture fixtureStored) "key_2" (.Leaf "docs.read") [])) :=
  ⟨by decide,
    Check_fails_closed (fixture fixtureStored) "key_2" (.Leaf "docs.read") []
      ["cache.SWR key_2", "db.FindPermissionsForKey key_2"] []
      (Error.base "StoreUnavailable") (by decide)⟩

end permissions

/-! ## The cluster -/

namespace cluster

theorem keepInSync_nil {ρ : Type} (R : ring.Ring ρ Instance) (c : cluster ρ) :
    keepInSync R c [] = c := rfl

theorem keepInSync_cons {ρ : Type} (R : ring.Ring ρ Instance) (c : cluster ρ)
    (ev : membership.Event) (rest : List membership.Event) :
    keepInSync R c (ev :: rest) = keepInSync R (keepInSync.step R c ev) rest := rfl

/-- One iteration performs on the ring the mutation that mirrors the event, and
keeps the ring that the mutation leaves behind, whether or not it failed. -/
theorem step_ring {ρ : Type} (R : ring.Ring ρ Instance) (c : cluster ρ) (ev : membership.Event) :
    (keepInSync.step R c ev).ring = (R.apply c.ring (mirror ev)).1 := by
  cases ev with
  | join m =>
    simp only [keepInSync.step, mirror, ring.Ring.apply, fmt.Sprintf_s_colon_d]
    split <;> simp_all
  | leave m =>
    simp only [keepInSync.step, mirror, ring.Ring.apply]
    split <;> simp_all

/-- One iteration leaves both topics of the cluster as they were. -/
theorem step_topics {ρ : Type} (R : ring.Ring ρ Instance) (c : cluster ρ)
    (ev : membership.Event) :
    (keepInSync.step R c ev).joinEvents = c.joinEvents ∧
    (keepInSync.step R c ev).leaveEvents = c.leaveEvents := by
  cases ev with
  | join m => simp only [keepInSync.step]; split <;> simp
  | leave m => simp only [keepInSync.step]; split <;> simp

/-- The reconciler never emits on the topics of the cluster. -/
theorem keepInSync_topics {ρ : Type} (R : ring.Ring ρ Instance) (c : cluster ρ)
    (received : List membership.Event) :
    (keepInSync R c received).joinEvents = c.joinEvents ∧
    (keepInSync R c received).leaveEvents = c.leaveEvents := by
  induction received generalizing c with
  | nil => exact ⟨rfl, rfl⟩
  | cons ev rest ih =>
    rw [keepInSync_cons]
    have h := step_topics R c ev
    have h2 := ih (keepInSync.step R c ev)
    exact ⟨h2.1.trans h.1, h2.2.trans h.2⟩

theorem keepInSync_ring {ρ : Type} (R : ring.Ring ρ Instance) (c : cluster ρ)
    (received : List membership.Event) :
    (keepInSync R c received).ring
      = (received.map mirror).foldl (fun r mutation => (R.apply r mutation).1) c.ring := by
  induction received generalizing c with
  | nil => rfl
  | cons ev rest ih =>
    rw [keepInSync_cons, ih, step_ring]
    rfl

theorem foldl_recorder (zero : Instance) (muts : List (ring.Mutation Instance))
    (r : List (ring.Mutation Instance)) :
    muts.foldl (fun r mutation => ((ring.recorder zero).apply r mutation).1) r = r ++ muts := by
  induction muts generalizing r with
  | nil => simp
  | cons mutation rest ih =>
    rw [List.foldl_cons, ih]
    cases mutation <;> simp [ring.Ring.apply, ring.recorder]

theorem foldl_failing (zero : Instance) (err : Error) (muts : List (ring.Mutation Instance))
    (r : List (ring.Mutation Instance)) :
    muts.foldl (fun r mutation => ((ring.failing zero err).apply r mutation).1) r
      = r ++ muts := by
  induction muts generalizing r with
  | nil => simp
  | cons mutation rest ih =>
    rw [List.foldl_cons, ih]
    cases mutation <;> simp [ring.Ring.apply, ring.failing]

/-- C4: `FindInstance` fails exactly when the ring's `FindNode` fails, then with
the zero `Instance` and the ring's error unchanged; when `FindNode` succeeds it
returns, without error, the `Tags` of the node found.  In particular on the
empty ring of spec §4.3 it returns the `NoNodes` error. -/
theorem FindInstance_delegates_to_ring {ρ : Type} (R : ring.Ring ρ Instance) (c : cluster ρ)
    (key : String) :
    ((c.FindInstance R key).2 ≠ none ↔ (R.FindNode c.ring key).2 ≠ none) ∧
    (∀ err : Error, (R.FindNode c.ring key).2 = some err →
      c.FindInstance R key = (Instance.zero, some err)) ∧
    ((R.FindNode c.ring key).2 = none →
      c.FindInstance R key = ((R.FindNode c.ring key).1.Tags, none)) ∧
    (∀ (h : ring.Hash) (c0 : cluster (ring.State Instance)), c0.ring.tokens = [] →
      c0.FindInstance (ring.spec Instance.zero h) key = (Instance.zero, some ring.NoNodes)) := by
  refine ⟨?_, ?_, ?_, ?_⟩
  · unfold cluster.FindInstance
    split <;> simp_all
  · intro err h
    unfold cluster.FindInstance
    split <;> simp_all
  · intro h
    unfold cluster.FindInstance
    split <;> simp_all
  · intro h c0 h0
    simp [cluster.FindInstance, ring.spec, h0]

/-- C5: whenever `New` returns a cluster, `Self()` is `config.Self` and the ring
of the cluster is the freshly created ring after a successful
`AddNode({ID: config.Self.ID, Tags: config.Self})`; and when that `AddNode`
fails, `New` returns its error and no cluster. -/
theorem New_registers_self {ρ : Type} (R : ring.Ring ρ Instance) (registered : Option Error)
    (config : Config) :
    (∀ c : cluster ρ, New R registered config = .ok c →
      c.Self = config.Self ∧
      ∃ r0, R.New { TokensPerNode := 256 } = .ok r0 ∧
        R.AddNode r0 { ID := config.Self.ID, Tags := config.Self } = (c.ring, none)) ∧
    (∀ (r0 r1 : ρ) (err : Error), R.New { TokensPerNode := 256 } = .ok r0 →
      registered = none →
      R.AddNode r0 { ID := config.Self.ID, Tags := config.Self } = (r1, some err) →
      New R registered config = .error err) := by
  constructor
  · intro c h
    unfold New at h
    split at h
    · cases h
    · rename_i r0 hr0
      split at h
      · cases h
      · split at h
        · cases h
        · rename_i r1 hadd
          cases h
          exact ⟨rfl, r0, hr0, hadd⟩
  · intro r0 r1 err h1 h2 h3
    simp [New, h1, h2, h3, registerMetrics]


/-- Witness for C4: on a ring holding `node_1` the key `abc` is found without
error; on the ring that always fails the error comes back unchanged; on the
empty ring the error is `NoNodes`. -/
theorem FindInstance_delegates_to_ring_witness :
    ((ring.failing Instance.zero (Error.base "RingEmpty")).FindNode fixtureCluster.ring "abc").2
      = some (Error.base "RingEmpty") ∧
    fixtureCluster.FindInstance (ring.failing Instance.zero (Error.base "RingEmpty")) "abc"
      = (Instance.zero, some (Error.base "RingEmpty")) ∧
    ((ring.recorder Instance.zero).FindNode fixtureCluster.ring "abc").2 = none ∧
    fixtureCluster.FindInstance (ring.recorder Instance.zero) "abc"
      = (((ring.recorder Instance.zero).FindNode fixtureCluster.ring "abc").1.Tags, none) ∧
    fixtureEmpty.ring.tokens = [] ∧
    fixtureEmpty.FindInstance (ring.spec Instance.zero fixtureHash) "abc"
      = (Instance.zero, some ring.NoNodes) :=
  ⟨by decide,
    (FindInstance_delegates_to_ring (ring.failing Instance.zero (Error.base "RingEmpty"))
      fixtureCluster "abc").2.1 (Error.base "RingEmpty") (by decide),
    by decide,
    (FindInstance_delegates_to_ring (ring.recorder Instance.zero)
      fixtureCluster "abc").2.2.1 (by decide),
    rfl,
    (FindInstance_delegates_to_ring (ring.recorder Instance.zero)
      fixtureCluster "abc").2.2.2 fixtureHash fixtureEmpty rfl⟩

/-- Witness for C5: over the recording ring `New` returns the cluster whose ring
holds exactly the node of `fixtureSelf`; over the failing ring it returns the
ring's error. -/
theorem New_registers_self_witness :
    New (ring.recorder Instance.zero) none { Self := fixtureSelf } = .ok fixtureCluster ∧
    (fixtureCluster.Self = fixtureSelf ∧
      ∃ r0, (ring.recorder Instance.zero).New { TokensPerNode := 256 } = .ok r0 ∧
        (ring.recorder Instance.zero).AddNode r0 { ID := fixtureSelf.ID, Tags := fixtureSelf }
          = (fixtureCluster.ring, none)) ∧
    (ring.failing Instance.zero (Error.base "Internal")).New { TokensPerNode := 256 } = .ok [] ∧
    (ring.failing Instance.zero (Error.base "Internal")).AddNode []
        { ID := fixtureSelf.ID, Tags := fixtureSelf }
      = ([.AddNode { ID := fixtureSelf.ID, Tags := fixtureSelf }],
          some (Error.base "Internal")) ∧
    New (ring.failing Instance.zero (Error.base "Internal")) none { Self := fixtureSelf }
      = .error (Error.base "Internal") :=
  ⟨rfl,
    (New_registers_self (ring.recorder Instance.zero) none { Self := fixtureSelf }).1
      fixtureCluster rfl,
    rfl, rfl,
    (New_registers_self (ring.failing Instance.zero (Error.base "Internal")) none
      { Self := fixtureSelf }).2 [] _ (Error.base "Internal") rfl rfl rfl⟩

/-- C6: for every finite sequence of membership events, the ring that
`keepInSync` leaves is the result of performing, in the order received, exactly
the mirrored mutation of each event (for a join of `m`, `AddNode` with `ID =
m.InstanceID` and `Tags = {ID: m.InstanceID, RpcAddr: "<m.Host>:<m.RpcPort>"}`;
for a leave of `m`, `RemoveNode(m.InstanceID)`), continuing from whatever ring
a mutation leaves behind, failed or not.  On the recording ring the calls made
are the mirrored events, one per event; on the ring whose every mutation fails
they are the same calls, and each event is logged with its error line. -/
theorem keepInSync_mirrors_events {ρ : Type} (R : ring.Ring ρ Instance) (c : cluster ρ)
    (c1 : cluster (List (ring.Mutation Instance))) (err : Error)
    (received : List membership.Event) :
    (keepInSync R c received).ring
      = (received.map mirror).foldl (fun r mutation => (R.apply r mutation).1) c.ring ∧
    (keepInSync (ring.recorder Instance.zero) c1 received).ring
      = c1.ring ++ received.map mirror ∧
    (keepInSync (ring.failing Instance.zero err) c1 received).ring
      = c1.ring ++ received.map mirror ∧
    (keepInSync (ring.failing Instance.zero err) c1 received).logger
      = c1.logger ++ received.flatMap (fun ev =>
          match ev with
          | .join _ => [{ level := .Info, msg := "instance joined" },
                        { level := .Error, msg := "failed to add node to ring" }]
          | .leave _ => [{ level := .Info, msg := "instance left" },
                         { level := .Error, msg := "failed to remove node from ring" }]) := by
  refine ⟨keepInSync_ring R c received, ?_, ?_, ?_⟩
  · rw [keepInSync_ring, foldl_recorder]
  · rw [keepInSync_ring, foldl_failing]
  · induction received generalizing c1 with
    | nil => simp [keepInSync_nil]
    | cons ev rest ih =>
      rw [keepInSync_cons, ih]
      cases ev <;> simp [keepInSync.step, ring.failing]

/-- C7 on the code: the reconciler never emits on the topics of the cluster, so
whatever events it consumes, the channels of `SubscribeJoin` and
`SubscribeLeave` receive nothing from it.  At the failing input: after a join
of `node_2` has been consumed (and the ring has been told to add it) the channel
of `SubscribeJoin` has received nothing; likewise for a leave and
`SubscribeLeave`. -/
theorem keepInSync_does_not_republish {ρ : Type} (R : ring.Ring ρ Instance) (c : cluster ρ)
    (received : List membership.Event) :
    (keepInSync R c received).SubscribeJoin = c.SubscribeJoin ∧
    (keepInSync R c received).SubscribeLeave = c.SubscribeLeave ∧
    (keepInSync (ring.recorder Instance.zero) fixtureCluster [.join fixtureMember]).ring
      = [.AddNode { ID := "node_1", Tags := fixtureSelf },
         .AddNode { ID := "node_2", Tags := { ID := "node_2", RpcAddr := "10.0.0.2:9000" } }] ∧
    (keepInSync (ring.recorder Instance.zero) fixtureCluster
      [.join fixtureMember]).SubscribeJoin = [] ∧
    (keepInSync (ring.recorder Instance.zero) fixtureCluster [.leave fixtureMember]).ring
      = [.AddNode { ID := "node_1", Tags := fixtureSelf }, .RemoveNode "node_2"] ∧
    (keepInSync (ring.recorder Instance.zero) fixtureCluster
      [.leave fixtureMember]).SubscribeLeave = [] := by
  have h := keepInSync_topics R c received
  refine ⟨?_, ?_, by decide, by decide, by decide, by decide⟩
  · simp only [cluster.SubscribeJoin, h.1]
  · simp only [cluster.SubscribeLeave, h.2]

end cluster

/-! ## The request id on a context -/

namespace ctxutil

end ctxutil
